import Mathlib

/-!
A verification development for a small financial-data pipeline that
resolves raw XBRL fact records into one authoritative annual value per
fiscal year per concept.  The definitions below are a shallow embedding
of the pipeline's source: `extract_metric` (filtering to annual 10-K
filings, grouping by fiscal year, duration-typed resolution by a
span/score filter, instant-typed resolution by latest filing date),
the growth column of `display_net_income`, and the outer merge and
profit-margin display of the multi-metric combiner.
-/

namespace SecEdgar

/-- Calendar date with Gregorian leap-year rules, the result of parsing
an ISO `YYYY-MM-DD` string (Python's `datetime.strptime(s, '%Y-%m-%d')`). -/
structure Date where
  year : Nat
  month : Nat
  day : Nat
deriving DecidableEq

/-- Gregorian leap-year test. -/
def isLeap (y : Nat) : Bool :=
  (y % 4 == 0 && y % 100 != 0) || y % 400 == 0

/-- Number of days in a month of a given year. -/
def daysInMonth (y m : Nat) : Nat :=
  if m = 2 then (if isLeap y then 29 else 28)
  else if m = 4 ∨ m = 6 ∨ m = 9 ∨ m = 11 then 30 else 31

/-- Day count of a date (days since 0000-03-01 in the proleptic Gregorian
calendar); differences of `toDays` agree with Python's
`(date2 - date1).days`. -/
def toDays (d : Date) : Nat :=
  let y := if d.month ≤ 2 then d.year - 1 else d.year
  let era := y / 400
  let yoe := y % 400
  let mp := (d.month + 9) % 12
  let doy := (153 * mp + 2) / 5 + (d.day - 1)
  let doe := yoe * 365 + yoe / 4 - yoe / 100 + doy
  era * 146097 + doe

/-- Split a character list at each `-` separator, like the split on the
literal `-` that the `%Y-%m-%d` format performs. -/
def splitDash : List Char → List (List Char)
  | [] => [[]]
  | c :: cs =>
    if c = '-' then [] :: splitDash cs
    else
      match splitDash cs with
      | [] => [[c]]
      | g :: gs => (c :: g) :: gs

/-- Decimal value of a digit group; `none` as soon as a non-digit
character appears. -/
def parseDigitsAux (acc : Nat) : List Char → Option Nat
  | [] => some acc
  | c :: cs =>
    if 48 ≤ c.toNat ∧ c.toNat ≤ 57 then parseDigitsAux (acc * 10 + (c.toNat - 48)) cs
    else none

/-- Parse a nonempty all-digit character group, as the digit groups of
`strptime` require; `none` on an empty or non-digit group. -/
def parseDigits : List Char → Option Nat
  | [] => none
  | c :: cs => parseDigitsAux 0 (c :: cs)

/-- Parse a date string in the `%Y-%m-%d` format of
`datetime.strptime`: a four-digit year, a one- or two-digit month in
1..12, a one- or two-digit day valid for that month and year; any other
shape raises `ValueError` in the source, modelled here as `none`. -/
def parseDate (s : String) : Option Date :=
  match splitDash s.data with
  | [ys, ms, ds] =>
    if ys.length = 4 ∧ (1 ≤ ms.length ∧ ms.length ≤ 2) ∧ (1 ≤ ds.length ∧ ds.length ≤ 2) then
      match parseDigits ys, parseDigits ms, parseDigits ds with
      | some y, some m, some d =>
        if 1 ≤ y ∧ 1 ≤ m ∧ m ≤ 12 ∧ 1 ≤ d ∧ d ≤ daysInMonth y m then some ⟨y, m, d⟩
        else none
      | _, _, _ => none
    else none
  | _ => none

/-- One raw fact record (`RawFactRecord`): the JSON fields the source
reads.  `form` and `fp` are read with `.get` (hence optional), `start`
is present for duration metrics and absent for instant metrics, `end_`
models the always-present `end` key, `filed` is the filing date string
(ISO strings compare like dates), `val` the signed numeric value. -/
structure Filing where
  fy : Int
  form : Option String
  fp : Option String
  start : Option String
  end_ : String
  filed : String
  val : ℚ
deriving DecidableEq

/-- Errors arising inside `extract_metric`'s `try` block.  `KeyError`s
(concept missing, USD unit missing, a filing without a `start` key in
the duration branch) and `TypeError`s are caught by the source's
`except (KeyError, TypeError)` handler; a date-parse `ValueError`
(`malformedPeriod`, naming the offending record) and an `IndexError`
are not caught and propagate to the caller. -/
inductive Err
  | conceptNotFound
  | unitNotFound
  | missingKey
  | indexError
  | malformedPeriod (f : Filing)
deriving DecidableEq

instance instDecEqExcept {ε α : Type} [DecidableEq ε] [DecidableEq α] :
    DecidableEq (Except ε α) := fun a b =>
  match a, b with
  | Except.ok x, Except.ok y =>
    if h : x = y then Decidable.isTrue (congrArg Except.ok h)
    else Decidable.isFalse (fun hc => h (Except.ok.inj hc))
  | Except.error x, Except.error y =>
    if h : x = y then Decidable.isTrue (congrArg Except.error h)
    else Decidable.isFalse (fun hc => h (Except.error.inj hc))
  | Except.ok _, Except.error _ => Decidable.isFalse (fun hc => Except.noConfusion hc)
  | Except.error _, Except.ok _ => Decidable.isFalse (fun hc => Except.noConfusion hc)

/-- Whether the source's `except (KeyError, TypeError)` handler catches
the error (returning `[]` to the caller). -/
def caught : Err → Bool
  | .conceptNotFound => true
  | .unitNotFound => true
  | .missingKey => true
  | .indexError => false
  | .malformedPeriod _ => false

/-- A scored duration candidate, as appended by the source:
`(filing, abs(end.year - year), -days)`. -/
abbrev Cand := Filing × Int × Int

/-- Lexicographic order on score pairs, Python's tuple comparison used
by `candidates.sort(key=lambda x: (x[1], x[2]))`. -/
def lexLe (a b : Int × Int) : Prop :=
  a.1 < b.1 ∨ (a.1 = b.1 ∧ a.2 ≤ b.2)

instance lexLe.dec : DecidableRel lexLe := fun a b =>
  inferInstanceAs (Decidable (a.1 < b.1 ∨ (a.1 = b.1 ∧ a.2 ≤ b.2)))

/-- Candidate comparison by score tuple. -/
def candLe (a b : Cand) : Prop := lexLe a.2 b.2

instance candLe.dec : DecidableRel candLe := fun a b =>
  inferInstanceAs (Decidable (lexLe a.2 b.2))

instance candLe.total : IsTotal Cand candLe where
  total a b := by
    rcases lt_trichotomy a.2.1 b.2.1 with h | h | h
    · exact Or.inl (Or.inl h)
    · rcases le_total a.2.2 b.2.2 with h2 | h2
      · exact Or.inl (Or.inr ⟨h, h2⟩)
      · exact Or.inr (Or.inr ⟨h.symm, h2⟩)
    · exact Or.inr (Or.inl h)

instance candLe.trans : IsTrans Cand candLe where
  trans a b c hab hbc := by
    rcases hab with h1 | ⟨h1, h1'⟩ <;> rcases hbc with h2 | ⟨h2, h2'⟩
    · exact Or.inl (h1.trans h2)
    · exact Or.inl (h2 ▸ h1)
    · exact Or.inl (h1 ▸ h2)
    · exact Or.inr ⟨h1.trans h2, h1'.trans h2'⟩

/-- The stable ascending sort the source applies to scored candidates
(`candidates.sort(key=lambda x: (x[1], x[2]))`; Python's sort is
stable, as is insertion sort). -/
def sortCands (cs : List Cand) : List Cand :=
  List.insertionSort candLe cs

/-- The duration-branch candidate loop of `extract_metric`: for each
filing of the fiscal-year group, parse `start` and `end` (a missing
`start` key is a `KeyError`, an unparsable date a `ValueError` naming
the record), compute the day span, and keep the filing with score
`(abs(end.year - year), -days)` when `days >= 350 and start.year >=
year - 1 and end.year >= year - 1`. -/
def durationCandidates (year : Int) : List Filing → Except Err (List Cand)
  | [] => Except.ok []
  | f :: fs =>
    match f.start with
    | none => Except.error Err.missingKey
    | some sStr =>
      match parseDate sStr with
      | none => Except.error (Err.malformedPeriod f)
      | some s =>
        match parseDate f.end_ with
        | none => Except.error (Err.malformedPeriod f)
        | some e =>
          let days : Int := (toDays e : Int) - (toDays s : Int)
          match durationCandidates year fs with
          | Except.error er => Except.error er
          | Except.ok rest =>
            if days ≥ 350 ∧ (s.year : Int) ≥ year - 1 ∧ (e.year : Int) ≥ year - 1 then
              Except.ok ((f, |(e.year : Int) - year|, -days) :: rest)
            else Except.ok rest

/-- Specification-side eligibility of one record for a fiscal year, read
off the duration filter: `some key` when the record's dates parse, its
period spans at least 350 days and both period years are at least
`year - 1`, with `key` the score tuple `(abs(end.year - year), -days)`;
`none` otherwise. -/
def eligKey (year : Int) (f : Filing) : Option (Int × Int) :=
  match f.start with
  | none => none
  | some sStr =>
    match parseDate sStr, parseDate f.end_ with
    | some s, some e =>
      let days : Int := (toDays e : Int) - (toDays s : Int)
      if days ≥ 350 ∧ (s.year : Int) ≥ year - 1 ∧ (e.year : Int) ≥ year - 1 then
        some (|(e.year : Int) - year|, -days)
      else none
    | _, _ => none

/-- Duration-typed resolution of one fiscal-year group: filter and
score the group, sort candidates ascending by score tuple, and emit
the first candidate's filing (`candidates[0][0]`); an empty candidate
set emits nothing. -/
def resolveDurationGroup (year : Int) (group : List Filing) : Except Err (Option Filing) :=
  match durationCandidates year group with
  | Except.error e => Except.error e
  | Except.ok cs =>
    match sortCands cs with
    | [] => Except.ok none
    | c :: _ => Except.ok (some c.1)

/-- Python's `max(iterable, key=...)` over a nonempty list, seeded with
the first element: replace the running best only on a strictly greater
key, so the first maximal element wins.  Python compares the filed-date
strings lexicographically by code point, modelled as the lexicographic
order on their character lists. -/
def pyMaxBy (key : Filing → String) (best : Filing) : List Filing → Filing
  | [] => best
  | x :: xs => pyMaxBy key (if (key best).data < (key x).data then x else best) xs

/-- The source's group classification: `'start' in by_year[year][0]`,
true when the first record of the group carries a `start` date. -/
def usesDurationPath (group : List Filing) : Bool :=
  match group with
  | [] => false
  | f :: _ => f.start.isSome

/-- Resolution of one fiscal-year group: classify by the first record's
`start` presence, then duration-typed selection or instant-typed
`max(group, key=lambda x: x['filed'])`.  An empty group would be an
uncaught `IndexError` in the source (it cannot arise from grouping). -/
def resolveGroup (year : Int) (group : List Filing) : Except Err (Option Filing) :=
  match group with
  | [] => Except.error Err.indexError
  | f0 :: rest =>
    if f0.start.isSome then resolveDurationGroup year (f0 :: rest)
    else Except.ok (some (pyMaxBy (fun f => f.filed) f0 rest))

/-- Insert a fiscal-year key into a sorted duplicate-free key list. -/
def insertKey (y : Int) : List Int → List Int
  | [] => [y]
  | x :: xs =>
    if y < x then y :: x :: xs
    else if y = x then x :: xs
    else x :: insertKey y xs

/-- The `sorted(by_year.keys())` iteration order: the distinct fiscal
years of the filtered filings, ascending. -/
def sortedKeys : List Filing → List Int
  | [] => []
  | f :: fs => insertKey f.fy (sortedKeys fs)

/-- The per-year resolution loop of `extract_metric`: for each fiscal
year in ascending order, resolve the group of filings with that `fy`
and append the resolved record, if any, to the results. -/
def resolveYears (annual : List Filing) : List Int → Except Err (List Filing)
  | [] => Except.ok []
  | y :: ys =>
    match resolveGroup y (annual.filter (fun f => f.fy == y)) with
    | Except.error e => Except.error e
    | Except.ok r =>
      match resolveYears annual ys with
      | Except.error e => Except.error e
      | Except.ok rest =>
        match r with
        | some f => Except.ok (f :: rest)
        | none => Except.ok rest

/-- The unit map of one concept (`data['facts']['us-gaap'][name]['units']`). -/
structure ConceptFacts where
  units : List (String × List Filing)
deriving DecidableEq

/-- The fact collection (`data['facts']['us-gaap']`), keyed by concept. -/
structure FactsData where
  usGaap : List (String × ConceptFacts)
deriving DecidableEq

/-- Python dict lookup: the value of the first matching key, `none`
when absent (a `KeyError` at the call site). -/
def lookupKey {β : Type} (l : List (String × β)) (k : String) : Option β :=
  (l.find? (fun p => p.1 == k)).map (fun p => p.2)

/-- The body of `extract_metric`'s `try` block: look up the concept and
the USD unit (a missing key raises `KeyError`), filter to filings with
`form == '10-K'` and `fp == 'FY'`, then resolve the fiscal-year groups
in ascending year order. -/
def runExtract (data : FactsData) (name : String) : Except Err (List Filing) :=
  match lookupKey data.usGaap name with
  | none => Except.error Err.conceptNotFound
  | some concept =>
    match lookupKey concept.units "USD" with
    | none => Except.error Err.unitNotFound
    | some filings =>
      let annual := filings.filter (fun f => f.form == some "10-K" && f.fp == some "FY")
      resolveYears annual (sortedKeys annual)

/-- The full `extract_metric`: run the `try` block; a `KeyError` or
`TypeError` is caught and `[]` returned, while any other exception
(notably the date-parse `ValueError`) propagates to the caller. -/
def extract_metric (data : FactsData) (name : String) : Except Err (List Filing) :=
  match runExtract data name with
  | Except.ok r => Except.ok r
  | Except.error e => if caught e then Except.ok [] else Except.error e

/-- The growth column of `display_net_income`: `prev_val` starts as
`None`; for each filing the growth is `((val - prev_val) / abs(prev_val))
* 100` when `prev_val` is set and nonzero, and `N/A` (here `none`)
otherwise; `prev_val` then becomes the current value. -/
def growthList : Option ℚ → List Filing → List (Option ℚ)
  | _, [] => []
  | prev, f :: fs =>
    (match prev with
     | some p => if p = 0 then none else some ((f.val - p) / |p| * 100)
     | none => none) :: growthList (some f.val) fs

/-- The `(fy, val)` column projection `pd.DataFrame(results)[['fy', 'val']]`
applied to a resolved series. -/
def toSeries (l : List Filing) : List (Int × ℚ) :=
  l.map (fun f => (f.fy, f.val))

/-- Value of a series at a fiscal year, `none` when the year is absent. -/
def lookupYear (s : List (Int × ℚ)) (y : Int) : Option ℚ :=
  (s.find? (fun p => p.1 == y)).map (fun p => p.2)

/-- The sorted distinct union of the fiscal years of two series: the key
set of `merge(..., on='fiscal_year', how='outer')` after
`sort_values('fiscal_year')`. -/
def yearKeys (a b : List (Int × ℚ)) : List Int :=
  (a.map (fun p => p.1) ++ b.map (fun p => p.1)).foldr insertKey []

/-- One row of the combined table: fiscal year plus the two metric
columns, `none` modelling the `NaN` a pandas outer merge places in a
column with no matching row. -/
structure Row where
  fiscal_year : Int
  net_income : Option ℚ
  revenue : Option ℚ
deriving DecidableEq

/-- The outer merge of `combine_metrics` followed by
`sort_values('fiscal_year')`: one row per fiscal year present in either
series, each column `none` where its series lacks the year. -/
def outer_merge (ni rev : List (Int × ℚ)) : List Row :=
  (yearKeys ni rev).map (fun y => ⟨y, lookupYear ni y, lookupYear rev y⟩)

/-- Pandas `df.tail(5)`: the last five rows (all rows when fewer). -/
def tail5 {α : Type} (l : List α) : List α :=
  l.drop (l.length - 5)

/-- One row's margin value `(row['net_income'] / row['revenue']) * 100`:
a missing operand (pandas `NaN`) or a zero divisor yields a non-numeric
float (`NaN`/`inf`), modelled as `none`. -/
def marginOf (a b : Option ℚ) : Option ℚ :=
  match a, b with
  | some ni, some rev => if rev = 0 then none else some (ni / rev * 100)
  | _, _ => none

/-- The profit-margin loop of `display_summary`: over `recent =
df.tail(5)` it prints one margin line per row, whatever the row's
operands — a line is still printed for a row with a missing operand. -/
def marginEntries (rows : List Row) : List (Int × Option ℚ) :=
  (tail5 rows).map (fun r => (r.fiscal_year, marginOf r.net_income r.revenue))

/-! Concrete records used to exercise the theorems below. -/

/-- A fiscal-2020 duration record whose `start` string is unparsable. -/
def bad2020 : Filing := ⟨2020, some "10-K", some "FY", some "not-a-date", "2020-12-31", "2021-02-01", 5⟩

/-- A clean fiscal-2021 duration record spanning 364 days. -/
def good2021 : Filing := ⟨2021, some "10-K", some "FY", some "2021-01-01", "2021-12-31", "2022-02-01", 7⟩

/-- A fact collection whose only concept holds `bad2020` and `good2021`. -/
def exData3 : FactsData := ⟨[("NetIncomeLoss", ⟨[("USD", [bad2020, good2021])]⟩)]⟩

/-- Instant-typed fiscal-2022 record filed 2022-02-01. -/
def iA : Filing := ⟨2022, some "10-K", some "FY", none, "2022-12-31", "2022-02-01", 1⟩

/-- Instant-typed fiscal-2022 record filed 2023-01-15 (the restatement). -/
def iB : Filing := ⟨2022, some "10-K", some "FY", none, "2022-12-31", "2023-01-15", 2⟩

/-- Instant-typed fiscal-2022 record filed 2022-03-01. -/
def iC : Filing := ⟨2022, some "10-K", some "FY", none, "2022-12-31", "2022-03-01", 3⟩

/-- First of two instant records sharing the maximal filed date. -/
def tA : Filing := ⟨2022, some "10-K", some "FY", none, "2022-12-31", "2022-03-01", 4⟩

/-- Second instant record with the same filed date as `tA`. -/
def tB : Filing := ⟨2022, some "10-K", some "FY", none, "2022-12-31", "2022-03-01", 5⟩

/-- Instant record with an earlier filed date. -/
def tC : Filing := ⟨2022, some "10-K", some "FY", none, "2022-12-31", "2021-01-01", 6⟩

/-- Duration record for fiscal 2019 spanning 364 days, ending in 2019. -/
def w1 : Filing := ⟨2019, some "10-K", some "FY", some "2018-12-29", "2019-12-28", "2020-02-01", 10⟩

/-- Duration record for fiscal 2019 spanning 371 days, ending in 2019. -/
def w2 : Filing := ⟨2019, some "10-K", some "FY", some "2018-12-24", "2019-12-30", "2019-02-01", 11⟩

/-- A fiscal-2021 duration record spanning only 200 days. -/
def d200 : Filing := ⟨2021, some "10-K", some "FY", some "2021-01-01", "2021-07-20", "2022-02-01", 8⟩

/-- A clean fiscal-2022 duration record spanning 364 days. -/
def k2022 : Filing := ⟨2022, some "10-K", some "FY", some "2022-01-01", "2022-12-31", "2023-02-01", 9⟩

/-- A fact collection whose only concept holds `d200` and `k2022`. -/
def exData5 : FactsData := ⟨[("Revenues", ⟨[("USD", [d200, k2022])]⟩)]⟩

/-- Instant-typed fiscal-2021 record. -/
def a2021 : Filing := ⟨2021, some "10-K", some "FY", none, "2021-12-31", "2022-02-01", 20⟩

/-- Instant-typed fiscal-2020 record. -/
def a2020 : Filing := ⟨2020, some "10-K", some "FY", none, "2020-12-31", "2021-02-01", 21⟩

/-- A fact collection listing fiscal 2021 before fiscal 2020. -/
def exData4 : FactsData := ⟨[("Assets", ⟨[("USD", [a2021, a2020])]⟩)]⟩

/-- A fact collection whose only concept carries no USD unit. -/
def exData8 : FactsData := ⟨[("Assets", ⟨[("EUR", [a2021])]⟩)]⟩

/-- Resolved fiscal-2020 record with value 100. -/
def f20 : Filing := ⟨2020, some "10-K", some "FY", some "2020-01-01", "2020-12-31", "2021-02-01", 100⟩

/-- Resolved fiscal-2021 record with value -50. -/
def f21 : Filing := ⟨2021, some "10-K", some "FY", some "2021-01-01", "2021-12-31", "2022-02-01", -50⟩

/-- Resolved fiscal-2022 record with value 0. -/
def f22 : Filing := ⟨2022, some "10-K", some "FY", some "2022-01-01", "2022-12-31", "2023-02-01", 0⟩

/-- Net-income series covering fiscal years 2019-2021. -/
def niEx : List (Int × ℚ) := [(2019, 10), (2020, 12), (2021, 15)]

/-- Revenue series covering fiscal years 2020-2022. -/
def revEx : List (Int × ℚ) := [(2020, 100), (2021, 120), (2022, 130)]

/-! Helper lemmas about the key list, the Python `max`, the candidate
filter and the candidate sort. -/

theorem mem_insertKey (y z : Int) (l : List Int) :
    z ∈ insertKey y l ↔ z = y ∨ z ∈ l := by
  induction l with
  | nil => simp [insertKey]
  | cons x xs ih =>
    simp only [insertKey]
    split_ifs with h1 h2
    · simp [List.mem_cons]
    · subst h2
      simp only [List.mem_cons]
      tauto
    · simp only [List.mem_cons, ih]
      tauto

theorem pairwise_insertKey (y : Int) (l : List Int)
    (h : List.Pairwise (· < ·) l) :
    List.Pairwise (· < ·) (insertKey y l) := by
  induction l with
  | nil => simp [insertKey]
  | cons x xs ih =>
    rcases List.pairwise_cons.mp h with ⟨hx, hxs⟩
    simp only [insertKey]
    split_ifs with h1 h2
    · exact List.pairwise_cons.mpr
        ⟨fun z hz => by
          rcases List.mem_cons.mp hz with rfl | hz
          · exact h1
          · exact h1.trans (hx z hz), h⟩
    · exact h
    · refine List.pairwise_cons.mpr ⟨fun z hz => ?_, ih hxs⟩
      rcases (mem_insertKey y z xs).mp hz with rfl | hz
      · omega
      · exact hx z hz

theorem sortedKeys_pairwise (l : List Filing) :
    List.Pairwise (· < ·) (sortedKeys l) := by
  induction l with
  | nil => simp [sortedKeys]
  | cons f fs ih => exact pairwise_insertKey f.fy (sortedKeys fs) ih

theorem pyMaxBy_mem (key : Filing → String) (l : List Filing) :
    ∀ best : Filing, pyMaxBy key best l ∈ best :: l := by
  induction l with
  | nil => intro best; simp [pyMaxBy]
  | cons x xs ih =>
    intro best
    simp only [pyMaxBy]
    split_ifs with h
    · have := ih x
      rcases List.mem_cons.mp this with h2 | h2
      · simp [h2]
      · simp [List.mem_cons, h2]
    · have := ih best
      rcases List.mem_cons.mp this with h2 | h2
      · simp [h2]
      · simp [List.mem_cons, h2]

theorem pyMaxBy_le (key : Filing → String) (l : List Filing) :
    ∀ best : Filing, (key best).data ≤ (key (pyMaxBy key best l)).data ∧
      ∀ g ∈ l, (key g).data ≤ (key (pyMaxBy key best l)).data := by
  induction l with
  | nil => intro best; simp [pyMaxBy]
  | cons x xs ih =>
    intro best
    simp only [pyMaxBy]
    split_ifs with h
    · rcases ih x with ⟨h1, h2⟩
      refine ⟨(le_of_lt h).trans h1, fun g hg => ?_⟩
      rcases List.mem_cons.mp hg with rfl | hg
      · exact h1
      · exact h2 g hg
    · rcases ih best with ⟨h1, h2⟩
      refine ⟨h1, fun g hg => ?_⟩
      rcases List.mem_cons.mp hg with rfl | hg
      · exact (not_lt.mp h).trans h1
      · exact h2 g hg

theorem pyMaxBy_first (key : Filing → String) (l : List Filing) :
    ∀ best : Filing, ∃ l1 l2, best :: l = l1 ++ pyMaxBy key best l :: l2 ∧
      ∀ g ∈ l1, (key g).data < (key (pyMaxBy key best l)).data := by
  induction l with
  | nil => intro best; exact ⟨[], [], by simp [pyMaxBy], by simp⟩
  | cons x xs ih =>
    intro best
    simp only [pyMaxBy]
    split_ifs with h
    · rcases ih x with ⟨l1, l2, heq, hlt⟩
      refine ⟨best :: l1, l2, by rw [List.cons_append, ← heq], fun g hg => ?_⟩
      rcases List.mem_cons.mp hg with rfl | hg
      · exact lt_of_lt_of_le h (pyMaxBy_le key xs x).1
      · exact hlt g hg
    · rcases ih best with ⟨l1, l2, heq, hlt⟩
      cases l1 with
      | nil =>
        simp only [List.nil_append, List.cons_eq_cons] at heq
        refine ⟨[], x :: xs, ?_, by simp⟩
        simp only [List.nil_append]
        rw [← heq.1]
      | cons hd tl =>
        simp only [List.cons_append, List.cons_eq_cons] at heq
        rcases heq with ⟨rfl, heq2⟩
        have hbest : (key best).data < (key (pyMaxBy key best xs)).data :=
          hlt best (List.mem_cons_self _ _)
        refine ⟨best :: x :: tl, l2, ?_, fun g hg => ?_⟩
        · simp only [List.cons_append]
          rw [← heq2]
        · rcases List.mem_cons.mp hg with rfl | hg
          · exact hbest
          · rcases List.mem_cons.mp hg with rfl | hg
            · exact lt_of_le_of_lt (not_lt.mp h) hbest
            · exact hlt g (List.mem_cons_of_mem _ hg)

theorem durationCandidates_ok (year : Int) (group : List Filing) (cs : List Cand)
    (h : durationCandidates year group = Except.ok cs) :
    cs = group.filterMap (fun f => (eligKey year f).map (fun k => (f, k))) := by
  induction group generalizing cs with
  | nil =>
    simp only [durationCandidates, Except.ok.injEq] at h
    simp [← h]
  | cons f fs ih =>
    rcases hs : f.start with _ | sStr
    · simp [durationCandidates, hs] at h
    · rcases hps : parseDate sStr with _ | s
      · simp [durationCandidates, hs, hps] at h
      · rcases hpe : parseDate f.end_ with _ | e
        · simp [durationCandidates, hs, hps, hpe] at h
        · rcases hrest : durationCandidates year fs with er | rest
          · simp [durationCandidates, hs, hps, hpe, hrest] at h
          · simp only [durationCandidates, hs, hps, hpe, hrest] at h
            by_cases hcond : ((toDays e : Int) - (toDays s : Int)) ≥ 350 ∧
                (s.year : Int) ≥ year - 1 ∧ (e.year : Int) ≥ year - 1
            · have he : eligKey year f =
                  some (|(e.year : Int) - year|, -((toDays e : Int) - (toDays s : Int))) := by
                simp [eligKey, hs, hps, hpe, hcond]
              simp only [if_pos hcond, Except.ok.injEq] at h
              rw [List.filterMap_cons, he, ← h, ih rest hrest]
              rfl
            · have he : eligKey year f = none := by
                simp only [eligKey, hs, hps, hpe]
                exact if_neg hcond
              simp only [if_neg hcond, Except.ok.injEq] at h
              rw [List.filterMap_cons, he, ← h, ih rest hrest]
              rfl

theorem candLe_refl (a : Cand) : candLe a a :=
  Or.inr ⟨rfl, le_refl _⟩

theorem sortCands_head_min (cs : List Cand) (hne : cs ≠ []) :
    ∃ c t, sortCands cs = c :: t ∧ c ∈ cs ∧ ∀ b ∈ cs, candLe c b := by
  have hperm : List.Perm (sortCands cs) cs := List.perm_insertionSort candLe cs
  have hsorted : List.Sorted candLe (sortCands cs) := List.sorted_insertionSort candLe cs
  cases hsc : sortCands cs with
  | nil =>
    rw [hsc] at hperm
    exact absurd hperm.symm.eq_nil hne
  | cons c t =>
    rw [hsc] at hperm hsorted
    refine ⟨c, t, rfl, hperm.mem_iff.mp (List.mem_cons_self _ _), fun b hb => ?_⟩
    rcases List.mem_cons.mp (hperm.mem_iff.mpr hb) with rfl | hbt
    · exact candLe_refl b
    · exact List.rel_of_sorted_cons hsorted b hbt

theorem mem_of_mem_filterMap_elig (year : Int) (group : List Filing) (c : Cand)
    (h : c ∈ group.filterMap (fun f => (eligKey year f).map (fun k => (f, k)))) :
    c.1 ∈ group ∧ eligKey year c.1 = some c.2 := by
  rcases List.mem_filterMap.mp h with ⟨f, hf, hmap⟩
  rcases Option.map_eq_some'.mp hmap with ⟨k, hk, hck⟩
  cases hck
  exact ⟨hf, hk⟩

theorem filterMap_elig_mem (year : Int) (group : List Filing) (f : Filing)
    (k : Int × Int) (hf : f ∈ group) (hk : eligKey year f = some k) :
    (f, k) ∈ group.filterMap (fun f => (eligKey year f).map (fun kk => (f, kk))) :=
  List.mem_filterMap.mpr ⟨f, hf, by rw [hk]; rfl⟩

theorem resolveGroup_mem (year : Int) (group : List Filing) (f : Filing)
    (h : resolveGroup year group = Except.ok (some f)) : f ∈ group := by
  rcases group with _ | ⟨f0, rest⟩
  · simp [resolveGroup] at h
  · simp only [resolveGroup] at h
    split_ifs at h with hstart
    · cases hdc : durationCandidates year (f0 :: rest) with
      | error er => simp [resolveDurationGroup, hdc] at h
      | ok cs =>
        simp only [resolveDurationGroup, hdc] at h
        cases hsc : sortCands cs with
        | nil => simp [hsc] at h
        | cons c t =>
          simp only [hsc, Except.ok.injEq, Option.some.injEq] at h
          have hperm : List.Perm (sortCands cs) cs := List.perm_insertionSort candLe cs
          have hc : c ∈ cs := hperm.mem_iff.mp
            (by rw [hsc]; exact List.mem_cons_self _ _)
          have := mem_of_mem_filterMap_elig year (f0 :: rest) c
            (durationCandidates_ok year (f0 :: rest) cs hdc ▸ hc)
          exact h ▸ this.1
    · simp only [Except.ok.injEq, Option.some.injEq] at h
      exact h ▸ pyMaxBy_mem (fun g => g.filed) rest f0

theorem resolveYears_pairwise (annual : List Filing) :
    ∀ (ys : List Int) (rs : List Filing), List.Pairwise (· < ·) ys →
      resolveYears annual ys = Except.ok rs →
      List.Pairwise (fun a b : Filing => a.fy < b.fy) rs ∧ ∀ r ∈ rs, r.fy ∈ ys := by
  intro ys
  induction ys with
  | nil =>
    intro rs _ h
    simp only [resolveYears, Except.ok.injEq] at h
    simp [← h]
  | cons y ys ih =>
    intro rs hpw h
    rcases List.pairwise_cons.mp hpw with ⟨hy, hys⟩
    cases hrg : resolveGroup y (annual.filter (fun f => f.fy == y)) with
    | error e => simp [resolveYears, hrg] at h
    | ok r =>
      cases hrest : resolveYears annual ys with
      | error e => simp [resolveYears, hrg, hrest] at h
      | ok rest =>
        rcases ih rest hys hrest with ⟨hpw2, hmem2⟩
        cases r with
        | none =>
          simp only [resolveYears, hrg, hrest, Except.ok.injEq] at h
          rw [← h]
          exact ⟨hpw2, fun r hr => List.mem_cons_of_mem _ (hmem2 r hr)⟩
        | some f =>
          simp only [resolveYears, hrg, hrest, Except.ok.injEq] at h
          have hfy : f.fy = y := by
            have hf : f ∈ annual.filter (fun g => g.fy == y) := resolveGroup_mem _ _ _ hrg
            simpa using List.of_mem_filter hf
          rw [← h]
          constructor
          · refine List.pairwise_cons.mpr ⟨fun b hb => ?_, hpw2⟩
            rw [hfy]
            exact hy b.fy (hmem2 b hb)
          · intro r hr
            rcases List.mem_cons.mp hr with rfl | hr
            · rw [hfy]; exact List.mem_cons_self _ _
            · exact List.mem_cons_of_mem _ (hmem2 r hr)

/-- C4: for every input on which extraction returns a resolved sequence,
that sequence is strictly ascending by fiscal year, and consequently no
two emitted entries share a fiscal year. -/
theorem extract_metric_strictly_ascending (data : FactsData) (name : String)
    (results : List Filing) (h : extract_metric data name = Except.ok results) :
    List.Chain' (fun a b : Filing => a.fy < b.fy) results ∧
    List.Pairwise (fun a b : Filing => a.fy ≠ b.fy) results := by
  have main : List.Pairwise (fun a b : Filing => a.fy < b.fy) results := by
    cases hrun : runExtract data name with
    | error e =>
      simp only [extract_metric, hrun] at h
      split_ifs at h with hc
      simp only [Except.ok.injEq] at h
      rw [← h]
      exact List.Pairwise.nil
    | ok r =>
      simp only [extract_metric, hrun, Except.ok.injEq] at h
      cases hl1 : lookupKey data.usGaap name with
      | none => simp [runExtract, hl1] at hrun
      | some concept =>
        cases hl2 : lookupKey concept.units "USD" with
        | none => simp [runExtract, hl1, hl2] at hrun
        | some filings =>
          simp only [runExtract, hl1, hl2] at hrun
          rw [← h]
          exact (resolveYears_pairwise _ _ r
            (sortedKeys_pairwise _) hrun).1
  exact ⟨main.chain', main.imp (fun hab => ne_of_lt hab)⟩

/-- C4 witness: a concrete two-year instant-typed collection, listed out
of order, resolves to a sequence that is strictly ascending by fiscal
year with pairwise distinct years. -/
theorem extract_metric_strictly_ascending_witness :
    List.Chain' (fun a b : Filing => a.fy < b.fy) [a2020, a2021] ∧
    List.Pairwise (fun a b : Filing => a.fy ≠ b.fy) [a2020, a2021] :=
  extract_metric_strictly_ascending exData4 "Assets" [a2020, a2021] (by decide)

/-- C1: in a duration-typed group, the candidate set is exactly the
records passing the 350-day and period-year filter, paired with the
score tuple `(abs(end.year - year), -days)`; when it is nonempty, the
emitted record is an eligible group member whose score tuple is minimal
under lexicographic comparison among all eligible records. -/
theorem extract_metric_duration_selection (year : Int) (f0 : Filing)
    (rest : List Filing) (cs : List Cand) (hdur : f0.start.isSome = true)
    (hcs : durationCandidates year (f0 :: rest) = Except.ok cs) :
    cs = (f0 :: rest).filterMap (fun f => (eligKey year f).map (fun k => (f, k))) ∧
    (cs ≠ [] → ∃ f k, resolveGroup year (f0 :: rest) = Except.ok (some f) ∧
      f ∈ f0 :: rest ∧ eligKey year f = some k ∧
      ∀ g ∈ f0 :: rest, ∀ kg, eligKey year g = some kg → lexLe k kg) := by
  have hchar := durationCandidates_ok year (f0 :: rest) cs hcs
  refine ⟨hchar, fun hne => ?_⟩
  rcases sortCands_head_min cs hne with ⟨c, t, hsc, hcmem, hmin⟩
  have hc1 := mem_of_mem_filterMap_elig year (f0 :: rest) c (hchar ▸ hcmem)
  refine ⟨c.1, c.2, ?_, hc1.1, hc1.2, fun g hg kg hkg => ?_⟩
  · simp only [resolveGroup, if_pos hdur, resolveDurationGroup, hcs, hsc]
  · have hgk : (g, kg) ∈ cs := by
      rw [hchar]
      exact filterMap_elig_mem year (f0 :: rest) g kg hg hkg
    exact hmin (g, kg) hgk

/-- C1 witness: for fiscal year 2019, among an eligible 364-day record
and an eligible 371-day record both ending in 2019, the resolver emits
an eligible record of minimal score. -/
theorem extract_metric_duration_selection_witness :
    ∃ f k, resolveGroup 2019 [w1, w2] = Except.ok (some f) ∧
      f ∈ [w1, w2] ∧ eligKey 2019 f = some k ∧
      ∀ g ∈ [w1, w2], ∀ kg, eligKey 2019 g = some kg → lexLe k kg :=
  (extract_metric_duration_selection 2019 w1 [w2]
    [(w1, 0, -364), (w2, 0, -371)] (by decide) (by decide)).2 (by decide)

/-- C2: for an instant-typed group (first record without a start date)
the resolver emits a group member whose filed date is maximal; in
particular, among the three fiscal-2022 records filed 2022-02-01,
2023-01-15 and 2022-03-01 the one filed 2023-01-15 is emitted. -/
theorem extract_metric_instant_latest_filed :
    (∀ (year : Int) (f0 : Filing) (rest : List Filing), f0.start = none →
      ∃ m, resolveGroup year (f0 :: rest) = Except.ok (some m) ∧ m ∈ f0 :: rest ∧
        ∀ g ∈ f0 :: rest, g.filed.data ≤ m.filed.data) ∧
    resolveGroup 2022 [iA, iB, iC] = Except.ok (some iB) := by
  constructor
  · intro year f0 rest h0
    refine ⟨pyMaxBy (fun f => f.filed) f0 rest, by simp [resolveGroup, h0],
      pyMaxBy_mem _ _ _, fun g hg => ?_⟩
    rcases List.mem_cons.mp hg with rfl | hg
    · exact (pyMaxBy_le (fun f => f.filed) rest g).1
    · exact (pyMaxBy_le (fun f => f.filed) rest f0).2 g hg
  · decide

/-- C2 witness: the general instant-typed selection applied to the
concrete three-record fiscal-2022 group. -/
theorem extract_metric_instant_latest_filed_witness :
    ∃ m, resolveGroup 2022 [iA, iB, iC] = Except.ok (some m) ∧ m ∈ [iA, iB, iC] ∧
      ∀ g ∈ [iA, iB, iC], g.filed.data ≤ m.filed.data :=
  extract_metric_instant_latest_filed.1 2022 iA [iB, iC] rfl

/-- C10: in an instant-typed group the emitted record is the first
maximal one in input order: the group splits as `l1 ++ m :: l2` where
every record before `m` has a strictly smaller filed date and no record
anywhere has a larger one. -/
theorem instant_tie_first_maximal (year : Int) (f0 : Filing) (rest : List Filing)
    (h0 : f0.start = none) :
    ∃ m l1 l2, resolveGroup year (f0 :: rest) = Except.ok (some m) ∧
      f0 :: rest = l1 ++ m :: l2 ∧ (∀ g ∈ l1, g.filed.data < m.filed.data) ∧
      ∀ g ∈ f0 :: rest, g.filed.data ≤ m.filed.data := by
  rcases pyMaxBy_first (fun f => f.filed) rest f0 with ⟨l1, l2, heq, hlt⟩
  refine ⟨pyMaxBy (fun f => f.filed) f0 rest, l1, l2,
    by simp [resolveGroup, h0], heq, hlt, fun g hg => ?_⟩
  rcases List.mem_cons.mp hg with rfl | hg
  · exact (pyMaxBy_le (fun f => f.filed) rest g).1
  · exact (pyMaxBy_le (fun f => f.filed) rest f0).2 g hg

/-- C10 witness: with two records sharing the maximal filed date
2022-03-01, the first of them in input order is the one emitted. -/
theorem instant_tie_first_maximal_witness :
    (∃ m l1 l2, resolveGroup 2022 [tA, tB, tC] = Except.ok (some m) ∧
      [tA, tB, tC] = l1 ++ m :: l2 ∧ (∀ g ∈ l1, g.filed.data < m.filed.data) ∧
      ∀ g ∈ [tA, tB, tC], g.filed.data ≤ m.filed.data) ∧
    resolveGroup 2022 [tA, tB, tC] = Except.ok (some tA) :=
  ⟨instant_tie_first_maximal 2022 tA [tB, tC] rfl, by decide⟩

/-- C9: the choice between duration-typed and instant-typed resolution
is read off the first record only: the classification bit equals the
first record's start-presence, any two groups with the same first
record classify identically, and the resolution branch taken matches
the classification. -/
theorem classification_first_record_only (year : Int) (f0 : Filing)
    (t u : List Filing) :
    usesDurationPath (f0 :: t) = f0.start.isSome ∧
    usesDurationPath (f0 :: t) = usesDurationPath (f0 :: u) ∧
    (f0.start.isSome = true →
      resolveGroup year (f0 :: t) = resolveDurationGroup year (f0 :: t)) ∧
    (f0.start.isSome = false →
      resolveGroup year (f0 :: t) =
        Except.ok (some (pyMaxBy (fun f => f.filed) f0 t))) := by
  refine ⟨rfl, rfl, fun h => ?_, fun h => ?_⟩
  · simp [resolveGroup, h]
  · simp [resolveGroup, h]

/-- C9 witness: a concrete instant-typed group resolves through the
instant branch regardless of its tail. -/
theorem classification_first_record_only_witness :
    resolveGroup 2022 [iA, iB] =
      Except.ok (some (pyMaxBy (fun f => f.filed) iA [iB])) :=
  (classification_first_record_only 2022 iA [iB] [iC]).2.2.2 rfl

/-- C5: a duration-typed fiscal-year group whose candidate set is empty
after filtering emits nothing and raises nothing: the group resolves to
`none` and the year's entry in the per-year loop is simply skipped,
resolution continuing with the remaining years. -/
theorem empty_candidates_drops_year (annual : List Filing) (y : Int)
    (ys : List Int) (f0 : Filing) (rest : List Filing)
    (hg : annual.filter (fun f => f.fy == y) = f0 :: rest)
    (hdur : f0.start.isSome = true)
    (hempty : durationCandidates y (f0 :: rest) = Except.ok []) :
    resolveDurationGroup y (f0 :: rest) = Except.ok none ∧
    resolveYears annual (y :: ys) = resolveYears annual ys := by
  have h1 : resolveDurationGroup y (f0 :: rest) = Except.ok none := by
    simp [resolveDurationGroup, hempty, sortCands]
  have h2 : resolveGroup y (f0 :: rest) = Except.ok none := by
    simp only [resolveGroup, if_pos hdur]
    exact h1
  refine ⟨h1, ?_⟩
  simp only [resolveYears, hg, h2]
  cases hr : resolveYears annual ys <;> rfl

/-- C5 witness: a fiscal-2021 group whose only record spans 200 days is
dropped without error and resolution proceeds to fiscal 2022. -/
theorem empty_candidates_drops_year_witness :
    resolveDurationGroup 2021 [d200] = Except.ok none ∧
    resolveYears [d200, k2022] [2021, 2022] = resolveYears [d200, k2022] [2022] :=
  empty_candidates_drops_year [d200, k2022] 2021 [2022] d200 []
    (by decide) (by decide) (by decide)

/-- C8: a missing concept fails the inner lookup with `ConceptNotFound`
and a missing USD unit with `UnitNotFound`; both are caught, so the
caller-visible result is the empty sequence with no error propagating. -/
theorem missing_concept_or_unit_yields_empty (data : FactsData) (name : String) :
    (lookupKey data.usGaap name = none →
      runExtract data name = Except.error Err.conceptNotFound ∧
      extract_metric data name = Except.ok []) ∧
    (∀ concept, lookupKey data.usGaap name = some concept →
      lookupKey concept.units "USD" = none →
      runExtract data name = Except.error Err.unitNotFound ∧
      extract_metric data name = Except.ok []) := by
  constructor
  · intro h1
    have hr : runExtract data name = Except.error Err.conceptNotFound := by
      simp [runExtract, h1]
    exact ⟨hr, by simp [extract_metric, hr, caught]⟩
  · intro concept h1 h2
    have hr : runExtract data name = Except.error Err.unitNotFound := by
      simp [runExtract, h1, h2]
    exact ⟨hr, by simp [extract_metric, hr, caught]⟩

/-- C8 witness: a collection without the requested concept, and one
whose concept lacks a USD unit, both yield the empty sequence. -/
theorem missing_concept_or_unit_yields_empty_witness :
    (runExtract exData8 "NetIncomeLoss" = Except.error Err.conceptNotFound ∧
      extract_metric exData8 "NetIncomeLoss" = Except.ok []) ∧
    (runExtract exData8 "Assets" = Except.error Err.unitNotFound ∧
      extract_metric exData8 "Assets" = Except.ok []) :=
  ⟨(missing_concept_or_unit_yields_empty exData8 "NetIncomeLoss").1 (by decide),
   (missing_concept_or_unit_yields_empty exData8 "Assets").2
     ⟨[("EUR", [a2021])]⟩ (by decide) (by decide)⟩

/-- C3 counterexample: with one unparsable fiscal-2020 record and one
clean fiscal-2021 record, the whole extraction call fails with the
date-parse error naming the bad record; the bad record is not skipped
and the clean year 2021 is not resolved, refuting skip-and-continue. -/
theorem malformed_period_skip_refuted :
    extract_metric exData3 "NetIncomeLoss" =
      Except.error (Err.malformedPeriod bad2020) ∧
    extract_metric exData3 "NetIncomeLoss" ≠ Except.ok [good2021] := by
  constructor <;> decide

/-- C3 amended: a record whose date strings cannot be parsed makes the
whole extraction call fail: the date-parse error is not caught by the
`except (KeyError, TypeError)` handler and propagates to the caller,
so no results are produced for any fiscal year of the concept
(abort-the-batch, not skip-and-continue); within a duration-typed group
whose records all carry start dates, any unparsable record makes the
candidate loop fail with an error naming some offending record. -/
theorem malformed_period_aborts_batch :
    (∀ (data : FactsData) (name : String) (f : Filing),
      runExtract data name = Except.error (Err.malformedPeriod f) →
      extract_metric data name = Except.error (Err.malformedPeriod f)) ∧
    (∀ (year : Int) (group : List Filing) (f : Filing) (s : String),
      (∀ g ∈ group, g.start.isSome = true) → f ∈ group → f.start = some s →
      parseDate s = none →
      ∃ g, durationCandidates year group = Except.error (Err.malformedPeriod g)) := by
  constructor
  · intro data name f h
    simp [extract_metric, h, caught]
  · intro year group
    induction group with
    | nil =>
      intro f s _ hf _ _
      exact absurd hf (List.not_mem_nil f)
    | cons g0 gs ih =>
      intro f s hall hf hfs hparse
      rcases hs0 : g0.start with _ | s0
      · exact absurd (hall g0 (List.mem_cons_self _ _)) (by simp [hs0])
      · cases hp0 : parseDate s0 with
        | none => exact ⟨g0, by simp [durationCandidates, hs0, hp0]⟩
        | some d0 =>
          cases hpe0 : parseDate g0.end_ with
          | none => exact ⟨g0, by simp [durationCandidates, hs0, hp0, hpe0]⟩
          | some e0 =>
            have hfgs : f ∈ gs := by
              rcases List.mem_cons.mp hf with rfl | hmem
              · rw [hfs] at hs0
                injection hs0 with hss
                rw [← hss] at hp0
                exact absurd (hp0.symm.trans hparse) (by simp)
              · exact hmem
            rcases ih f s (fun g hg => hall g (List.mem_cons_of_mem _ hg))
              hfgs hfs hparse with ⟨g, hgerr⟩
            exact ⟨g, by simp [durationCandidates, hs0, hp0, hpe0, hgerr]⟩

/-- C3 amended witness: the concrete unparsable record aborts both the
candidate loop of its group and the whole extraction call. -/
theorem malformed_period_aborts_batch_witness :
    extract_metric exData3 "NetIncomeLoss" =
      Except.error (Err.malformedPeriod bad2020) ∧
    ∃ g, durationCandidates 2020 [bad2020] =
      Except.error (Err.malformedPeriod g) :=
  ⟨malformed_period_aborts_batch.1 exData3 "NetIncomeLoss" bad2020 (by decide),
   malformed_period_aborts_batch.2 2020 [bad2020] bad2020 "not-a-date"
     (by decide) (by decide) (by decide) (by decide)⟩

theorem growthList_length (l : List Filing) :
    ∀ prev, (growthList prev l).length = l.length := by
  induction l with
  | nil => intro prev; rfl
  | cons f fs ih => intro prev; simp [growthList, ih]

theorem growthList_get (l : List Filing) :
    ∀ (prev : Option ℚ) (i : Nat) (v w : Filing), l[i]? = some v →
      l[i + 1]? = some w →
      (growthList prev l)[i + 1]? =
        some (if v.val = 0 then none else some ((w.val - v.val) / |v.val| * 100)) := by
  induction l with
  | nil =>
    intro prev i v w hv _
    simp at hv
  | cons f fs ih =>
    intro prev i v w hv hw
    cases i with
    | zero =>
      simp only [List.getElem?_cons_zero, Option.some.injEq] at hv
      subst hv
      cases fs with
      | nil => simp at hw
      | cons f2 fs2 =>
        simp only [List.getElem?_cons_succ, List.getElem?_cons_zero,
          Option.some.injEq] at hw
        subst hw
        simp [growthList]
    | succ j =>
      simp only [List.getElem?_cons_succ] at hv hw
      have := ih (some f.val) j v w hv hw
      simpa [growthList] using this

/-- C6: the growth column has one entry per resolved record; the first
entry is always `N/A`; the entry after a previous value `v` is `N/A`
exactly when `v = 0` and otherwise equals `(w - v) / abs(v) * 100`; and
the concrete series `[100, -50, 0]` yields
`[N/A, -150.0, +100.0]`. -/
theorem yoy_growth_spec :
    (∀ l : List Filing, (growthList none l).length = l.length) ∧
    (∀ (f : Filing) (fs : List Filing), (growthList none (f :: fs))[0]? = some none) ∧
    (∀ (l : List Filing) (i : Nat) (v w : Filing), l[i]? = some v →
      l[i + 1]? = some w →
      (growthList none l)[i + 1]? =
        some (if v.val = 0 then none else some ((w.val - v.val) / |v.val| * 100))) ∧
    growthList none [f20, f21, f22] = [none, some (-150), some 100] :=
  ⟨fun l => growthList_length l none,
   fun f fs => by simp [growthList],
   fun l i v w hv hw => growthList_get l none i v w hv hw,
   by norm_num [growthList, f20, f21, f22]⟩

/-- C6 witness: the indexed growth formula applied at the first step of
the concrete series, where the previous value 100 is nonzero. -/
theorem yoy_growth_spec_witness :
    (growthList none [f20, f21, f22])[0 + 1]? =
      some (if f20.val = 0 then none
        else some ((f21.val - f20.val) / |f20.val| * 100)) :=
  yoy_growth_spec.2.2.1 [f20, f21, f22] 0 f20 f21 (by decide) (by decide)

theorem marginOf_isSome (a b : Option ℚ) :
    (marginOf a b).isSome = true ↔ ∃ x z, a = some x ∧ b = some z ∧ z ≠ 0 := by
  rcases a with _ | x
  · simp [marginOf]
  · rcases b with _ | z
    · simp [marginOf]
    · by_cases hz : z = 0
      · simp [marginOf, hz]
      · simp [marginOf, hz]

/-- C7 counterexample: with net-income years 2019-2021 and revenue
years 2020-2022, the margin display emits one entry per year of the
outer-joined table — 2019, 2020, 2021 and 2022 — not only for the
intersection years 2020 and 2021 that the inner-join claim predicts. -/
theorem margin_inner_join_refuted :
    (marginEntries (outer_merge niEx revEx)).map Prod.fst = [2019, 2020, 2021, 2022] ∧
    (marginEntries (outer_merge niEx revEx)).map Prod.fst ≠ [2020, 2021] := by
  constructor <;> decide

/-- C7 amended: the combiner outer-joins the two series and the margin
display emits one entry per fiscal year among the last five rows of
that outer join, whether or not both series cover the year; the entry
carries a numeric margin exactly when the year is present in both
series with a nonzero revenue, and a non-numeric placeholder (pandas
`NaN`) otherwise — no inner join is performed. -/
theorem margin_outer_join_semantics (ni rev : List (Int × ℚ)) :
    (marginEntries (outer_merge ni rev)).map Prod.fst = tail5 (yearKeys ni rev) ∧
    ∀ y m, (y, m) ∈ marginEntries (outer_merge ni rev) →
      (m.isSome = true ↔
        ∃ a b, lookupYear ni y = some a ∧ lookupYear rev y = some b ∧ b ≠ 0) := by
  constructor
  · simp only [marginEntries, outer_merge, tail5, List.map_map, List.length_map,
      ← List.map_drop]
    rw [show (Prod.fst ∘ (fun r : Row => (r.fiscal_year, marginOf r.net_income r.revenue)) ∘
      fun y => Row.mk y (lookupYear ni y) (lookupYear rev y)) = @id Int from rfl]
    exact List.map_id _
  · intro y m hm
    rcases List.mem_map.mp hm with ⟨r, hr5, hfn⟩
    have hrmem : r ∈ outer_merge ni rev := List.mem_of_mem_drop hr5
    rcases List.mem_map.mp hrmem with ⟨z, hz, hzr⟩
    subst hzr
    simp only [Prod.mk.injEq] at hfn
    rcases hfn with ⟨hy, hmv⟩
    subst hy
    subst hmv
    exact marginOf_isSome (lookupYear ni z) (lookupYear rev z)

/-- C7 amended witness: on the concrete series, the margin entries
cover all four outer-join years, and the 2019 entry — a year absent
from the revenue series — carries the non-numeric placeholder. -/
theorem margin_outer_join_semantics_witness :
    (marginEntries (outer_merge niEx revEx)).map Prod.fst = tail5 (yearKeys niEx revEx) ∧
    ((none : Option ℚ).isSome = true ↔
      ∃ a b, lookupYear niEx 2019 = some a ∧ lookupYear revEx 2019 = some b ∧ b ≠ 0) :=
  ⟨(margin_outer_join_semantics niEx revEx).1,
   (margin_outer_join_semantics niEx revEx).2 2019 none (by decide)⟩

end SecEdgar
